import Mathlib

/- Verification of the seaf-web upload pipeline (src/main.rs), as a shallow
embedding in Lean.

Text scanned by the session-id regular expression is modelled as a list of
characters.  HTML documents are modelled at the level the program consumes
them through the scraper library: the first element matching the selector
form#share-passwd-form (with its input elements in document order), and the
script elements in document order (each with its text nodes in order).
Fallible operations return Except String carrying the error strings of the
source; errors produced by the HTTP and serde libraries, which the source
propagates verbatim, are given the fixed labels "network error",
"malformed response", "io error" and "clock error". -/

/-- The single-quote character delimiting the string literal matched by the
regular expression of extract_repo_id. -/
def squote : Char := Char.ofNat 39

/-- A lowercase hexadecimal digit, the character class of the regular
expression in extract_repo_id (digits 0-9 and letters a-f). -/
def isHexDigit (c : Char) : Bool :=
  decide (48 ≤ c.toNat ∧ c.toNat ≤ 57) || decide (97 ≤ c.toNat ∧ c.toNat ≤ 102)

/-- The literal opening part of the regular expression of extract_repo_id:
a single quote followed by the path prefix, before the 20-hex-digit part. -/
def lit1 : List Char := squote :: "/ajax/u/d/".data

/-- The literal middle part of the regular expression of extract_repo_id,
between the 20-hex-digit part and the captured UUID. -/
def lit2 : List Char := "/upload/?r=".data

/-- Match a literal character sequence at the head of the input, returning
the remainder on success. -/
def stripLit : List Char → List Char → Option (List Char)
  | [], s => some s
  | _ :: _, [] => none
  | c :: p, d :: s => if c = d then stripLit p s else none

/-- Match exactly n lowercase hex digits at the head of the input, returning
the digits and the remainder. -/
def stripHex : Nat → List Char → Option (List Char × List Char)
  | 0, s => some ([], s)
  | _ + 1, [] => none
  | n + 1, c :: s =>
    if isHexDigit c then
      match stripHex n s with
      | none => none
      | some (h, r) => some (c :: h, r)
    else none

/-- Match a hyphen followed by exactly n lowercase hex digits, returning the
digits and the remainder. -/
def stripDashHex (n : Nat) (s : List Char) : Option (List Char × List Char) :=
  match s with
  | [] => none
  | c :: rest => if c = '-' then stripHex n rest else none

/-- Assemble a UUID character list from its five groups. -/
def uuidOf (g1 g2 g3 g4 g5 : List Char) : List Char :=
  g1 ++ ('-' :: (g2 ++ ('-' :: (g3 ++ ('-' :: (g4 ++ ('-' :: g5)))))))

/-- Match a canonical UUID (hex groups of lengths 8-4-4-4-12 separated by
hyphens) at the head of the input, returning the matched characters and the
remainder.  This is the capturing group of the regular expression. -/
def stripUuid (s : List Char) : Option (List Char × List Char) :=
  match stripHex 8 s with
  | none => none
  | some (g1, s) =>
  match stripDashHex 4 s with
  | none => none
  | some (g2, s) =>
  match stripDashHex 4 s with
  | none => none
  | some (g3, s) =>
  match stripDashHex 4 s with
  | none => none
  | some (g4, s) =>
  match stripDashHex 12 s with
  | none => none
  | some (g5, s) => some (uuidOf g1 g2 g3 g4 g5, s)

/-- Match the whole fixed pattern of extract_repo_id at the head of the
input, returning the captured UUID: the quoted path prefix, 20 hex digits,
the upload path with the r= marker, the captured UUID, and the closing
single quote. -/
def matchAt (s : List Char) : Option (List Char) :=
  match stripLit lit1 s with
  | none => none
  | some s =>
  match stripHex 20 s with
  | none => none
  | some (_, s) =>
  match stripLit lit2 s with
  | none => none
  | some s =>
  match stripUuid s with
  | none => none
  | some (u, s) =>
  match s with
  | [] => none
  | c :: _ => if c = squote then some u else none

/-- Leftmost match of the fixed pattern in a text, as Regex::captures does:
try every start position from the left, returning the first capture. -/
def reFind : List Char → Option (List Char)
  | [] => none
  | c :: s =>
    match matchAt (c :: s) with
    | some u => some u
    | none => reFind s

/-- An input element, reduced to its value attribute. -/
structure InputEl where
  value : Option String

/-- The share-password form, reduced to its input elements in document
order. -/
structure FormEl where
  inputs : List InputEl

/-- A script element, reduced to its text nodes in document order. -/
structure Script where
  texts : List (List Char)

/-- An HTML document, at the level the program consumes it: the first
element matching form#share-passwd-form if any, and the script elements in
document order. -/
structure Html where
  sharePasswdForm : Option FormEl
  scripts : List Script

/-- Embedding of extract_token (src/main.rs lines 26-39): first element
matching form#share-passwd-form, its first input, the value attribute of
that input; the three error strings of the source. -/
def extract_token (doc : Html) : Except String String :=
  match doc.sharePasswdForm with
  | none => .error "no such form"
  | some form =>
    match form.inputs.head? with
    | none => .error "no such input"
    | some inp =>
      match inp.value with
      | none => .error "no csrfmiddlewaretoken"
      | some v => .ok v

/-- First capture of the fixed pattern across a list of text nodes, in
order (the inner loop of extract_repo_id). -/
def findInTexts : List (List Char) → Option (List Char)
  | [] => none
  | t :: ts =>
    match reFind t with
    | some u => some u
    | none => findInTexts ts

/-- First capture of the fixed pattern across the script elements in
document order (the outer loop of extract_repo_id). -/
def findInScripts : List Script → Option (List Char)
  | [] => none
  | sc :: ss =>
    match findInTexts sc.texts with
    | some u => some u
    | none => findInScripts ss

/-- Embedding of extract_repo_id (src/main.rs lines 67-83): scan script
elements in document order, each text node searched for the fixed pattern;
return the first captured UUID, or the error string of the source. -/
def extract_repo_id (doc : Html) : Except String (List Char) :=
  match findInScripts doc.scripts with
  | some u => .ok u
  | none => .error "invalid token/password"

/-- Declarative shape of a UUID: five hyphen-separated groups of lowercase
hex digits with lengths 8, 4, 4, 4 and 12. -/
def isUuidShaped (u : List Char) : Prop :=
  ∃ g1 g2 g3 g4 g5 : List Char,
    u = uuidOf g1 g2 g3 g4 g5 ∧
    g1.length = 8 ∧ g2.length = 4 ∧ g3.length = 4 ∧ g4.length = 4 ∧
    g5.length = 12 ∧
    (∀ c ∈ g1, isHexDigit c = true) ∧ (∀ c ∈ g2, isHexDigit c = true) ∧
    (∀ c ∈ g3, isHexDigit c = true) ∧ (∀ c ∈ g4, isHexDigit c = true) ∧
    (∀ c ∈ g5, isHexDigit c = true)

/-- Declarative statement that a text contains, at some position, a
substring in the fixed pattern shape capturing the UUID u: the quoted path
prefix, 20 hex digits, the upload marker, u, and the closing quote. -/
def patternOccursWith (t u : List Char) : Prop :=
  ∃ pre h post : List Char,
    t = pre ++ (lit1 ++ (h ++ (lit2 ++ (u ++ (squote :: post))))) ∧
    h.length = 20 ∧ (∀ c ∈ h, isHexDigit c = true) ∧ isUuidShaped u

/-- Declarative statement that some script text node of the document
contains the fixed pattern capturing u. -/
def occursInDoc (doc : Html) (u : List Char) : Prop :=
  ∃ sc ∈ doc.scripts, ∃ t ∈ sc.texts, patternOccursWith t u

/-- Sample 20-hex-digit path component used in concrete tests. -/
def sampleHex20 : List Char := "0123456789abcdef0123".data

/-- Sample UUID used in concrete tests. -/
def sampleUuid : List Char := "12345678-1234-1234-1234-123456789012".data

/-- A text consisting exactly of the fixed pattern around the given hex
path component and UUID. -/
def patternText (h u : List Char) : List Char :=
  lit1 ++ (h ++ (lit2 ++ (u ++ (squote :: []))))

/-- Sample document: a single script with a single text node holding one
occurrence of the pattern with sampleUuid. -/
def sampleDoc : Html :=
  { sharePasswdForm := none
    scripts := [{ texts := [patternText sampleHex20 sampleUuid] }] }

example : reFind (patternText sampleHex20 sampleUuid) = some sampleUuid := by decide
example : extract_repo_id sampleDoc = .ok sampleUuid := by rfl
example : reFind (patternText sampleHex20 "1234567-1234-1234-1234-123456789012".data) = none := by decide

theorem stripLit_eq_some {p : List Char} : ∀ {s r : List Char},
    stripLit p s = some r ↔ s = p ++ r := by
  induction p with
  | nil => intro s r; simp [stripLit]
  | cons c p ih =>
    intro s r
    cases s with
    | nil => simp [stripLit]
    | cons d s =>
      by_cases h : c = d
      · subst h
        simp [stripLit, ih]
      · simp [stripLit, h, Ne.symm h]

theorem stripHex_eq_some : ∀ {n : Nat} {s h r : List Char},
    stripHex n s = some (h, r) →
    s = h ++ r ∧ h.length = n ∧ ∀ c ∈ h, isHexDigit c = true := by
  intro n
  induction n with
  | zero =>
    intro s h r e
    simp only [stripHex, Option.some.injEq, Prod.mk.injEq] at e
    obtain ⟨e1, e2⟩ := e
    subst e1; subst e2
    simp
  | succ n ih =>
    intro s h r e
    cases s with
    | nil => simp [stripHex] at e
    | cons c s =>
      simp only [stripHex] at e
      by_cases hc : isHexDigit c = true
      · rw [if_pos hc] at e
        cases hs : stripHex n s with
        | none => rw [hs] at e; simp at e
        | some pr =>
          obtain ⟨h0, r0⟩ := pr
          rw [hs] at e
          simp only [Option.some.injEq, Prod.mk.injEq] at e
          obtain ⟨e1, e2⟩ := e
          subst e1; subst e2
          obtain ⟨he, hl, hh⟩ := ih hs
          refine ⟨by simp [he], by simp [hl], ?_⟩
          intro x hx
          rcases List.mem_cons.mp hx with hx | hx
          · subst hx; exact hc
          · exact hh x hx
      · rw [if_neg hc] at e; simp at e

theorem stripHex_append {h : List Char} (hh : ∀ c ∈ h, isHexDigit c = true)
    (r : List Char) : stripHex h.length (h ++ r) = some (h, r) := by
  induction h with
  | nil => simp [stripHex]
  | cons c h ih =>
    have hc : isHexDigit c = true := hh c (by simp)
    have ih2 := ih (fun x hx => hh x (by simp [hx]))
    simp [stripHex, hc, ih2]

theorem stripDashHex_eq_some {n : Nat} {s h r : List Char} :
    stripDashHex n s = some (h, r) →
    s = '-' :: (h ++ r) ∧ h.length = n ∧ ∀ c ∈ h, isHexDigit c = true := by
  cases s with
  | nil => simp [stripDashHex]
  | cons c s =>
    simp only [stripDashHex]
    by_cases hc : c = '-'
    · subst hc
      rw [if_pos rfl]
      intro e
      obtain ⟨he, hl, hh⟩ := stripHex_eq_some e
      exact ⟨by simp [he], hl, hh⟩
    · rw [if_neg hc]; intro e; simp at e

theorem stripDashHex_append {h : List Char} (hh : ∀ c ∈ h, isHexDigit c = true)
    (r : List Char) : stripDashHex h.length ('-' :: (h ++ r)) = some (h, r) := by
  simp [stripDashHex, stripHex_append hh r]

theorem stripUuid_eq_some {s u r : List Char} (e : stripUuid s = some (u, r)) :
    s = u ++ r ∧ isUuidShaped u := by
  unfold stripUuid at e
  split at e
  · simp at e
  rename_i g1 s1 e1
  split at e
  · simp at e
  rename_i g2 s2 e2
  split at e
  · simp at e
  rename_i g3 s3 e3
  split at e
  · simp at e
  rename_i g4 s4 e4
  split at e
  · simp at e
  rename_i g5 s5 e5
  simp only [Option.some.injEq, Prod.mk.injEq] at e
  obtain ⟨eu, er⟩ := e
  subst eu; subst er
  obtain ⟨q1, l1, x1⟩ := stripHex_eq_some e1
  obtain ⟨q2, l2, x2⟩ := stripDashHex_eq_some e2
  obtain ⟨q3, l3, x3⟩ := stripDashHex_eq_some e3
  obtain ⟨q4, l4, x4⟩ := stripDashHex_eq_some e4
  obtain ⟨q5, l5, x5⟩ := stripDashHex_eq_some e5
  constructor
  · subst q1; subst q2; subst q3; subst q4; subst q5
    simp [uuidOf]
  · exact ⟨g1, g2, g3, g4, g5, rfl, l1, l2, l3, l4, l5,
      x1, x2, x3, x4, x5⟩

theorem stripUuid_append {u : List Char} (hu : isUuidShaped u) (r : List Char) :
    stripUuid (u ++ r) = some (u, r) := by
  obtain ⟨g1, g2, g3, g4, g5, rfl, l1, l2, l3, l4, l5, x1, x2, x3, x4, x5⟩ := hu
  have e1 := stripHex_append x1
    ('-' :: (g2 ++ ('-' :: (g3 ++ ('-' :: (g4 ++ ('-' :: (g5 ++ r))))))))
  have e2 := stripDashHex_append x2
    ('-' :: (g3 ++ ('-' :: (g4 ++ ('-' :: (g5 ++ r))))))
  have e3 := stripDashHex_append x3 ('-' :: (g4 ++ ('-' :: (g5 ++ r))))
  have e4 := stripDashHex_append x4 ('-' :: (g5 ++ r))
  have e5 := stripDashHex_append x5 r
  rw [l1] at e1; rw [l2] at e2; rw [l3] at e3; rw [l4] at e4; rw [l5] at e5
  have harg : uuidOf g1 g2 g3 g4 g5 ++ r =
      g1 ++ ('-' :: (g2 ++ ('-' :: (g3 ++ ('-' :: (g4 ++ ('-' :: (g5 ++ r)))))))) := by
    simp [uuidOf]
  rw [harg]
  simp [stripUuid, e1, e2, e3, e4, e5, uuidOf]

theorem matchAt_eq_some {s u : List Char} (e : matchAt s = some u) :
    ∃ h post : List Char,
      s = lit1 ++ (h ++ (lit2 ++ (u ++ (squote :: post)))) ∧
      h.length = 20 ∧ (∀ c ∈ h, isHexDigit c = true) ∧ isUuidShaped u := by
  unfold matchAt at e
  split at e
  · simp at e
  rename_i s1 e1
  split at e
  · simp at e
  rename_i h s2 e2
  split at e
  · simp at e
  rename_i s3 e3
  split at e
  · simp at e
  rename_i v s4 e4
  split at e
  · simp at e
  rename_i c s5
  split at e
  · rename_i hc
    simp only [Option.some.injEq] at e
    subst e
    subst hc
    have q1 := stripLit_eq_some.mp e1
    obtain ⟨q2, l2, x2⟩ := stripHex_eq_some e2
    have q3 := stripLit_eq_some.mp e3
    obtain ⟨q4, hu⟩ := stripUuid_eq_some e4
    refine ⟨h, s5, ?_, l2, x2, hu⟩
    subst q1; subst q2; subst q3; subst q4
    rfl
  · simp at e

theorem matchAt_pattern (post : List Char) {h u : List Char} (hl : h.length = 20)
    (hh : ∀ c ∈ h, isHexDigit c = true) (hu : isUuidShaped u) :
    matchAt (lit1 ++ (h ++ (lit2 ++ (u ++ (squote :: post))))) = some u := by
  have e1 : stripLit lit1 (lit1 ++ (h ++ (lit2 ++ (u ++ (squote :: post))))) =
      some (h ++ (lit2 ++ (u ++ (squote :: post)))) := stripLit_eq_some.mpr rfl
  have e2 := stripHex_append hh (lit2 ++ (u ++ (squote :: post)))
  rw [hl] at e2
  have e3 : stripLit lit2 (lit2 ++ (u ++ (squote :: post))) =
      some (u ++ (squote :: post)) := stripLit_eq_some.mpr rfl
  have e4 := stripUuid_append hu (squote :: post)
  simp [matchAt, e1, e2, e3, e4]

theorem reFind_eq_some : ∀ {t u : List Char},
    reFind t = some u → patternOccursWith t u := by
  intro t
  induction t with
  | nil => intro u e; simp [reFind] at e
  | cons c t ih =>
    intro u e
    rw [reFind] at e
    cases em : matchAt (c :: t) with
    | some v =>
      rw [em] at e
      simp only [Option.some.injEq] at e
      subst e
      obtain ⟨h, post, hs, hl, hh, hu⟩ := matchAt_eq_some em
      exact ⟨[], h, post, by simpa using hs, hl, hh, hu⟩
    | none =>
      rw [em] at e
      obtain ⟨pre, h, post, ht, hl, hh, hu⟩ := ih e
      exact ⟨c :: pre, h, post, by simp [ht], hl, hh, hu⟩

theorem reFind_append_pattern (pre post : List Char) {h u : List Char}
    (hl : h.length = 20) (hh : ∀ c ∈ h, isHexDigit c = true)
    (hu : isUuidShaped u) :
    ∃ v, reFind (pre ++ (lit1 ++ (h ++ (lit2 ++ (u ++ (squote :: post)))))) =
      some v := by
  induction pre with
  | nil =>
    refine ⟨u, ?_⟩
    have hm : matchAt (squote :: ("/ajax/u/d/".data ++
        (h ++ (lit2 ++ (u ++ (squote :: post)))))) = some u :=
      matchAt_pattern post hl hh hu
    show reFind (squote :: ("/ajax/u/d/".data ++
        (h ++ (lit2 ++ (u ++ (squote :: post)))))) = some u
    rw [reFind, hm]
  | cons c pre ih =>
    obtain ⟨v, hv⟩ := ih
    cases em : matchAt (c :: (pre ++ (lit1 ++ (h ++ (lit2 ++ (u ++ (squote :: post))))))) with
    | some w =>
      refine ⟨w, ?_⟩
      rw [List.cons_append, reFind, em]
    | none =>
      refine ⟨v, ?_⟩
      rw [List.cons_append, reFind, em]
      exact hv

theorem reFind_eq_none {t : List Char} (hno : ∀ v, ¬ patternOccursWith t v) :
    reFind t = none := by
  cases e : reFind t with
  | none => rfl
  | some u => exact absurd (reFind_eq_some e) (hno u)

theorem reFind_unique {t u : List Char} (hocc : patternOccursWith t u)
    (huniq : ∀ v, patternOccursWith t v → v = u) : reFind t = some u := by
  obtain ⟨pre, h, post, ht, hl, hh, hu⟩ := hocc
  have hex : ∃ v, reFind t = some v := by
    rw [ht]; exact reFind_append_pattern pre post hl hh hu
  obtain ⟨v, hv⟩ := hex
  rw [huniq v (reFind_eq_some hv)] at hv
  exact hv

theorem findInTexts_eq_some : ∀ {ts : List (List Char)} {u : List Char},
    findInTexts ts = some u → ∃ t ∈ ts, patternOccursWith t u := by
  intro ts
  induction ts with
  | nil => intro u e; simp [findInTexts] at e
  | cons t ts ih =>
    intro u e
    rw [findInTexts] at e
    cases er : reFind t with
    | some v =>
      rw [er] at e
      simp only [Option.some.injEq] at e
      subst e
      exact ⟨t, by simp, reFind_eq_some er⟩
    | none =>
      rw [er] at e
      obtain ⟨t0, ht0, hocc⟩ := ih e
      exact ⟨t0, by simp [ht0], hocc⟩

theorem findInTexts_exists : ∀ {ts : List (List Char)} {u : List Char},
    (∃ t ∈ ts, patternOccursWith t u) → ∃ v, findInTexts ts = some v := by
  intro ts
  induction ts with
  | nil => intro u e; simp at e
  | cons t ts ih =>
    intro u e
    cases er : reFind t with
    | some v => exact ⟨v, by rw [findInTexts, er]⟩
    | none =>
      obtain ⟨t0, ht0, hocc⟩ := e
      rcases List.mem_cons.mp ht0 with h0 | h0
      · subst h0
        obtain ⟨pre, h, post, ht, hl, hh, hu⟩ := hocc
        have hex : ∃ v, reFind t0 = some v := by
          rw [ht]; exact reFind_append_pattern pre post hl hh hu
        obtain ⟨v, hv⟩ := hex
        rw [hv] at er
        exact absurd er (by simp)
      · obtain ⟨v, hv⟩ := ih ⟨t0, h0, hocc⟩
        exact ⟨v, by rw [findInTexts, er, hv]⟩

theorem findInTexts_eq_none {ts : List (List Char)}
    (hno : ∀ t ∈ ts, ∀ v, ¬ patternOccursWith t v) : findInTexts ts = none := by
  cases e : findInTexts ts with
  | none => rfl
  | some u =>
    obtain ⟨t, ht, hocc⟩ := findInTexts_eq_some e
    exact absurd hocc (hno t ht u)

theorem findInScripts_eq_some : ∀ {ss : List Script} {u : List Char},
    findInScripts ss = some u → ∃ sc ∈ ss, ∃ t ∈ sc.texts, patternOccursWith t u := by
  intro ss
  induction ss with
  | nil => intro u e; simp [findInScripts] at e
  | cons sc ss ih =>
    intro u e
    rw [findInScripts] at e
    cases et : findInTexts sc.texts with
    | some v =>
      rw [et] at e
      simp only [Option.some.injEq] at e
      subst e
      obtain ⟨t, ht, hocc⟩ := findInTexts_eq_some et
      exact ⟨sc, by simp, t, ht, hocc⟩
    | none =>
      rw [et] at e
      obtain ⟨sc0, hsc0, t, ht, hocc⟩ := ih e
      exact ⟨sc0, by simp [hsc0], t, ht, hocc⟩

theorem findInScripts_exists : ∀ {ss : List Script} {u : List Char},
    (∃ sc ∈ ss, ∃ t ∈ sc.texts, patternOccursWith t u) →
    ∃ v, findInScripts ss = some v := by
  intro ss
  induction ss with
  | nil => intro u e; simp at e
  | cons sc ss ih =>
    intro u e
    cases et : findInTexts sc.texts with
    | some v => exact ⟨v, by rw [findInScripts, et]⟩
    | none =>
      obtain ⟨sc0, hsc0, t, ht, hocc⟩ := e
      rcases List.mem_cons.mp hsc0 with h0 | h0
      · subst h0
        obtain ⟨v, hv⟩ := findInTexts_exists ⟨t, ht, hocc⟩
        rw [hv] at et
        exact absurd et (by simp)
      · obtain ⟨v, hv⟩ := ih ⟨sc0, h0, t, ht, hocc⟩
        exact ⟨v, by rw [findInScripts, et, hv]⟩

theorem findInScripts_eq_none {ss : List Script}
    (hno : ∀ sc ∈ ss, ∀ t ∈ sc.texts, ∀ v, ¬ patternOccursWith t v) :
    findInScripts ss = none := by
  cases e : findInScripts ss with
  | none => rfl
  | some u =>
    obtain ⟨sc, hsc, t, ht, hocc⟩ := findInScripts_eq_some e
    exact absurd hocc (hno sc hsc t ht u)

theorem extract_repo_id_sound {doc : Html} {u : List Char}
    (e : extract_repo_id doc = .ok u) : occursInDoc doc u := by
  unfold extract_repo_id at e
  cases ef : findInScripts doc.scripts with
  | none => rw [ef] at e; simp at e
  | some v =>
    rw [ef] at e
    simp only [Except.ok.injEq] at e
    subst e
    exact findInScripts_eq_some ef

theorem extract_repo_id_exists {doc : Html} {u : List Char}
    (hocc : occursInDoc doc u) :
    ∃ r, extract_repo_id doc = .ok r ∧ occursInDoc doc r := by
  obtain ⟨v, hv⟩ := findInScripts_exists hocc
  refine ⟨v, ?_, ?_⟩
  · unfold extract_repo_id; rw [hv]
  · exact findInScripts_eq_some hv

theorem extract_repo_id_fails {doc : Html}
    (hno : ∀ v, ¬ occursInDoc doc v) :
    extract_repo_id doc = .error "invalid token/password" := by
  have hn : findInScripts doc.scripts = none := by
    apply findInScripts_eq_none
    intro sc hsc t ht v hocc
    exact hno v ⟨sc, hsc, t, ht, hocc⟩
  unfold extract_repo_id
  rw [hn]

theorem extract_repo_id_unique {doc : Html} {u : List Char}
    (hocc : occursInDoc doc u) (huniq : ∀ v, occursInDoc doc v → v = u) :
    extract_repo_id doc = .ok u := by
  obtain ⟨r, hr, hoccr⟩ := extract_repo_id_exists hocc
  rw [huniq r hoccr] at hr
  exact hr

/- JSON model.  serde_json parses a response body into one of these values;
an integral number token becomes num, a number token with a fraction or
exponent that is not an integer becomes numNonInt. -/
inductive Json where
  | null
  | bool (b : Bool)
  | num (n : Int)
  | numNonInt
  | str (s : String)
  | arr (xs : List Json)
  | obj (fields : List (String × Json))

/-- serde deserialization of a String field: only a JSON string is
accepted. -/
def parseString : Json → Option String
  | .str s => some s
  | _ => none

/-- serde deserialization of a usize field: a nonnegative integral number
fitting the 64-bit machine word; anything else is rejected. -/
def parseUsize : Json → Option Nat
  | .num n => if 0 ≤ n ∧ n < 2 ^ 64 then some n.toNat else none
  | _ => none

/-- The UploadUrl record of the source (derive Deserialize, one field
url: String). -/
structure UploadUrl where
  url : String

/-- serde visitor for the UploadUrl struct over the fields of a JSON
object: unknown fields are ignored, a duplicate url field is an error, the
url field must be a string, and a missing url field is an error. -/
def parseUploadUrlFields : List (String × Json) → Option String → Option String
  | [], acc => acc
  | (k, v) :: rest, acc =>
    if k = "url" then
      match parseString v with
      | none => none
      | some s => if acc = none then parseUploadUrlFields rest (some s) else none
    else parseUploadUrlFields rest acc

/-- serde deserialization of UploadUrl: a JSON object whose url field is a
string. -/
def parseUploadUrl : Json → Option UploadUrl
  | .obj fields =>
    match parseUploadUrlFields fields none with
    | some s => some ⟨s⟩
    | none => none
  | _ => none

/-- Result of an HTTP exchange whose body the program reads as JSON:
either a transport failure, or a response whose body is valid JSON
(some value) or not valid JSON (none). -/
inductive JsonHttpResult where
  | transportError
  | response (body : Option Json)

/-- Embedding of the response handling of get_upload_url (src/main.rs lines
90-108): the send and json calls propagate transport and decode errors, and
on success the url field of the parsed object is returned unchanged. -/
def get_upload_url (r : JsonHttpResult) : Except String String :=
  match r with
  | .transportError => .error "network error"
  | .response none => .error "malformed response"
  | .response (some j) =>
    match parseUploadUrl j with
    | none => .error "malformed response"
    | some u => .ok u.url

/-- The FileUploadResp record of the source (derive Deserialize, fields
name: String, id: String, size: usize). -/
structure FileUploadResp where
  name : String
  id : String
  size : Nat

/-- End of the serde visitor for the FileUploadResp struct: every required
field must have been seen. -/
def finishResp : Option String → Option String → Option Nat →
    Option FileUploadResp
  | some nm, some i, some sz => some ⟨nm, i, sz⟩
  | _, _, _ => none

/-- serde visitor loop for the FileUploadResp struct over the fields of a
JSON object: unknown fields are ignored, duplicates are errors, and the
name, id and size fields must have the right type. -/
def parseRespFields : List (String × Json) → Option String → Option String →
    Option Nat → Option FileUploadResp
  | [], nm, i, sz => finishResp nm i sz
  | (k, v) :: rest, nm, i, sz =>
    if k = "name" then
      match parseString v with
      | none => none
      | some s => if nm = none then parseRespFields rest (some s) i sz else none
    else if k = "id" then
      match parseString v with
      | none => none
      | some s => if i = none then parseRespFields rest nm (some s) sz else none
    else if k = "size" then
      match parseUsize v with
      | none => none
      | some n => if sz = none then parseRespFields rest nm i (some n) else none
    else parseRespFields rest nm i sz

/-- serde deserialization of one FileUploadResp: a JSON object with the
three required fields. -/
def parseFileUploadResp : Json → Option FileUploadResp
  | .obj fields => parseRespFields fields none none none
  | _ => none

/-- serde deserialization of the element list of Vec of FileUploadResp:
every element must deserialize. -/
def parseRespArray : List Json → Option (List FileUploadResp)
  | [] => some []
  | j :: rest =>
    match parseFileUploadResp j, parseRespArray rest with
    | some r, some rs => some (r :: rs)
    | _, _ => none

/-- serde deserialization of Vec of FileUploadResp: a JSON array whose
elements all deserialize. -/
def parseRespList : Json → Option (List FileUploadResp)
  | .arr xs => parseRespArray xs
  | _ => none

/-- Embedding of upload_file (src/main.rs lines 117-127): building the
multipart form opens the local file (io error if that fails, before any
request is sent); the response body is deserialized as a vector of
FileUploadResp, and Vec::pop takes its last element, the empty vector being
the error of the source. -/
def upload_file (fileOpens : Bool) (r : JsonHttpResult) :
    Except String FileUploadResp :=
  if fileOpens = false then .error "io error"
  else
    match r with
    | .transportError => .error "network error"
    | .response none => .error "malformed response"
    | .response (some j) =>
      match parseRespList j with
      | none => .error "malformed response"
      | some resps =>
        match resps.getLast? with
        | none => .error "file upload failed"
        | some resp => .ok resp

/-- Result of an HTTP exchange whose body the program reads as text:
either a transport failure, or a status code with a body. -/
inductive HttpResult where
  | transportError
  | response (status : Nat) (body : String)

/-- Embedding of get_first_page (src/main.rs lines 17-24): send and text
propagate transport failures; the status code is never inspected, and
Html::parse_document (modelled by the parse argument, total as in
html5ever) is applied to whatever body arrives. -/
def get_first_page (parse : String → Html) (r : HttpResult) :
    Except String Html :=
  match r with
  | .transportError => .error "network error"
  | .response _ body => .ok (parse body)

/-- Embedding of post_password (src/main.rs lines 48-65): same response
handling as get_first_page; the posted form fields do not influence the
client-side control flow. -/
def post_password (parse : String → Html) (r : HttpResult) :
    Except String Html :=
  match r with
  | .transportError => .error "network error"
  | .response _ body => .ok (parse body)

/-- The HTTP requests the pipeline can issue, in the order of the source. -/
inductive NetCall where
  | getPage
  | postPassword
  | getUploadUrl
  | postUpload

/-- The environment of one invocation: the local file state, the parser of
the html5ever library, the responses the service would give to each
request, and whether the system clock is past the epoch. -/
structure World where
  fileExists : Bool
  parse : String → Html
  firstPageResp : HttpResult
  passwordResp : HttpResult
  clockOk : Bool
  uploadUrlResp : JsonHttpResult
  fileOpens : Bool
  uploadResp : JsonHttpResult

/-- Embedding of handle_upload (src/main.rs lines 129-143): the existence
check on the local path comes first, then the four network stages in order,
each aborting the pipeline on error.  The second component records every
HTTP request issued.  The password prompt between the first and second
stage reads stdin only and is not modelled. -/
def handle_upload (w : World) : Except String (String × String × Nat) × List NetCall :=
  if w.fileExists = false then (.error "no such file", [])
  else
    match get_first_page w.parse w.firstPageResp with
    | .error e => (.error e, [.getPage])
    | .ok doc1 =>
      match extract_token doc1 with
      | .error e => (.error e, [.getPage])
      | .ok _tok =>
        match post_password w.parse w.passwordResp with
        | .error e => (.error e, [.getPage, .postPassword])
        | .ok doc2 =>
          match extract_repo_id doc2 with
          | .error e => (.error e, [.getPage, .postPassword])
          | .ok _rid =>
            if w.clockOk = false then (.error "clock error", [.getPage, .postPassword])
            else
              match get_upload_url w.uploadUrlResp with
              | .error e => (.error e, [.getPage, .postPassword, .getUploadUrl])
              | .ok _url =>
                match upload_file w.fileOpens w.uploadResp with
                | .error e =>
                  (.error e, [.getPage, .postPassword, .getUploadUrl] ++
                    if w.fileOpens then [.postUpload] else [])
                | .ok resp =>
                  (.ok (resp.id, resp.name, resp.size),
                   [.getPage, .postPassword, .getUploadUrl, .postUpload])

theorem parseUploadUrlFields_no_url : ∀ {fields : List (String × Json)}
    {acc : Option String}, "url" ∉ fields.map Prod.fst →
    parseUploadUrlFields fields acc = acc := by
  intro fields
  induction fields with
  | nil => intro acc _; rfl
  | cons kv rest ih =>
    intro acc h
    obtain ⟨k, v⟩ := kv
    simp only [List.map_cons, List.mem_cons, not_or] at h
    obtain ⟨h1, h2⟩ := h
    rw [parseUploadUrlFields, if_neg (fun hk => h1 hk.symm)]
    exact ih h2

theorem parseUploadUrlFields_found : ∀ {pre : List (String × Json)}
    {post : List (String × Json)} {s : String},
    "url" ∉ pre.map Prod.fst → "url" ∉ post.map Prod.fst →
    parseUploadUrlFields (pre ++ ("url", .str s) :: post) none = some s := by
  intro pre
  induction pre with
  | nil =>
    intro post s _ hpost
    rw [List.nil_append, parseUploadUrlFields, if_pos rfl]
    show parseUploadUrlFields post (some s) = some s
    exact parseUploadUrlFields_no_url hpost
  | cons kv pre ih =>
    intro post s hpre hpost
    obtain ⟨k, v⟩ := kv
    simp only [List.map_cons, List.mem_cons, not_or] at hpre
    obtain ⟨h1, h2⟩ := hpre
    rw [List.cons_append, parseUploadUrlFields, if_neg (fun hk => h1 hk.symm)]
    exact ih h2 hpost

theorem parseRespArray_mem_none : ∀ {xs : List Json} {j : Json},
    j ∈ xs → parseFileUploadResp j = none → parseRespArray xs = none := by
  intro xs
  induction xs with
  | nil => intro j h; simp at h
  | cons x xs ih =>
    intro j hmem hj
    rcases List.mem_cons.mp hmem with h0 | h0
    · subst h0
      rw [parseRespArray, hj]
    · rw [parseRespArray, ih h0 hj]
      cases parseFileUploadResp x <;> rfl

theorem parseRespArray_getLast {xs : List Json} {rs : List FileUploadResp}
    {r : FileUploadResp} (hp : parseRespArray xs = some rs)
    (hl : rs.getLast? = some r) :
    upload_file true (.response (some (.arr xs))) = .ok r := by
  unfold upload_file
  rw [if_neg (by simp)]
  show (match parseRespList (Json.arr xs) with
    | none => Except.error "malformed response"
    | some resps =>
      match resps.getLast? with
      | none => Except.error "file upload failed"
      | some resp => Except.ok resp) = Except.ok r
  have hp2 : parseRespList (Json.arr xs) = some rs := hp
  rw [hp2]
  show (match rs.getLast? with
    | none => Except.error "file upload failed"
    | some resp => Except.ok resp) = Except.ok r
  rw [hl]

theorem sampleUuid_shaped : isUuidShaped sampleUuid := by
  refine ⟨"12345678".data, "1234".data, "1234".data, "1234".data,
    "123456789012".data, by decide, by decide, by decide, by decide,
    by decide, by decide, by decide, by decide, by decide, by decide,
    by decide⟩

theorem sample_text_occurs :
    patternOccursWith (patternText sampleHex20 sampleUuid) sampleUuid :=
  ⟨[], sampleHex20, [], rfl, by decide, by decide, sampleUuid_shaped⟩

theorem sample_occurs : occursInDoc sampleDoc sampleUuid :=
  ⟨⟨[patternText sampleHex20 sampleUuid]⟩, by simp [sampleDoc],
   patternText sampleHex20 sampleUuid, by simp, sample_text_occurs⟩

/-- Unfolding of extract_repo_id on an explicit document. -/
theorem extract_repo_id_mk (f : Option FormEl) (ss : List Script) :
    extract_repo_id ⟨f, ss⟩ =
      match findInScripts ss with
      | some u => .ok u
      | none => .error "invalid token/password" := rfl

/-- A document with a single script holding one text node. -/
def singleScriptDoc (t : List Char) : Html := ⟨none, [⟨[t]⟩]⟩

/-- Candidate UUID with first group of length 7 instead of 8. -/
def badUuidA : List Char := "1234567-1234-1234-1234-123456789012".data

/-- Candidate UUID with second group of length 3 instead of 4. -/
def badUuidB : List Char := "12345678-123-1234-1234-123456789012".data

/-- Candidate UUID with third group of length 5 instead of 4. -/
def badUuidC : List Char := "12345678-1234-12345-1234-123456789012".data

/-- Candidate UUID with fourth group of length 3 instead of 4. -/
def badUuidD : List Char := "12345678-1234-1234-123-123456789012".data

/-- Candidate UUID with fifth group of length 13 instead of 12. -/
def badUuidE : List Char := "12345678-1234-1234-1234-1234567890123".data

/-- Claim C1: for every document with a script text containing a substring
in the fixed pattern shape (quoted path prefix with 20 hex digits, the r=
marker, a canonical 8-4-4-4-12 lowercase hex UUID), extract_repo_id
succeeds and its result is itself the UUID of such an embedded substring,
hence returned exactly and case-preserved; when the document determines a
unique embedded UUID, exactly that UUID is returned; with no matching
script it fails with the invalid-credentials error of the source; and a
candidate UUID differing in the length of any of its five groups does not
match. -/
theorem claim_C1_extract_session_id (doc : Html) (u : List Char) :
    (occursInDoc doc u → ∃ r, extract_repo_id doc = .ok r ∧ occursInDoc doc r) ∧
    (occursInDoc doc u → (∀ v, occursInDoc doc v → v = u) →
      extract_repo_id doc = .ok u) ∧
    ((∀ v, ¬ occursInDoc doc v) →
      extract_repo_id doc = .error "invalid token/password") ∧
    extract_repo_id (singleScriptDoc (patternText sampleHex20 badUuidA)) =
      .error "invalid token/password" ∧
    extract_repo_id (singleScriptDoc (patternText sampleHex20 badUuidB)) =
      .error "invalid token/password" ∧
    extract_repo_id (singleScriptDoc (patternText sampleHex20 badUuidC)) =
      .error "invalid token/password" ∧
    extract_repo_id (singleScriptDoc (patternText sampleHex20 badUuidD)) =
      .error "invalid token/password" ∧
    extract_repo_id (singleScriptDoc (patternText sampleHex20 badUuidE)) =
      .error "invalid token/password" :=
  ⟨fun h => extract_repo_id_exists h,
   fun h hu => extract_repo_id_unique h hu,
   extract_repo_id_fails,
   by rfl, by rfl, by rfl, by rfl, by rfl⟩

/-- Witness for C1: on the sample document the extraction succeeds with an
embedded UUID. -/
theorem claim_C1_witness :
    ∃ r, extract_repo_id sampleDoc = Except.ok r ∧ occursInDoc sampleDoc r :=
  (claim_C1_extract_session_id sampleDoc sampleUuid).1 sample_occurs

/-- Claim C2: for every document whose share-password form is present and
whose first input carries a value attribute, extract_token returns exactly
that value; a missing form, a form with no input, and a first input without
a value attribute give the three distinct error outcomes of the source. -/
theorem claim_C2_extract_form_token (doc : Html) :
    (∀ form inp rest v, doc.sharePasswdForm = some form →
      form.inputs = inp :: rest → inp.value = some v →
      extract_token doc = .ok v) ∧
    (doc.sharePasswdForm = none →
      extract_token doc = .error "no such form") ∧
    (∀ form, doc.sharePasswdForm = some form → form.inputs = [] →
      extract_token doc = .error "no such input") ∧
    (∀ form inp rest, doc.sharePasswdForm = some form →
      form.inputs = inp :: rest → inp.value = none →
      extract_token doc = .error "no csrfmiddlewaretoken") ∧
    ((Except.error "no such form" : Except String String) ≠
        .error "no such input" ∧
      (Except.error "no such form" : Except String String) ≠
        .error "no csrfmiddlewaretoken" ∧
      (Except.error "no such input" : Except String String) ≠
        .error "no csrfmiddlewaretoken") := by
  refine ⟨?_, ?_, ?_, ?_, ?_, ?_, ?_⟩
  · intro form inp rest v h1 h2 h3
    simp [extract_token, h1, h2, h3]
  · intro h1
    simp [extract_token, h1]
  · intro form h1 h2
    simp [extract_token, h1, h2]
  · intro form inp rest h1 h2 h3
    simp [extract_token, h1, h2, h3]
  · simp
  · simp
  · simp

/-- Witness for C2 at a concrete document with a form whose first input
holds a value. -/
theorem claim_C2_witness :
    extract_token ⟨some ⟨[⟨some "tok123"⟩]⟩, []⟩ = Except.ok "tok123" :=
  (claim_C2_extract_form_token ⟨some ⟨[⟨some "tok123"⟩]⟩, []⟩).1
    ⟨[⟨some "tok123"⟩]⟩ ⟨some "tok123"⟩ [] "tok123" rfl rfl rfl

/-- First entry of the example response array of the spec. -/
def goodEntryA : Json :=
  .obj [("name", .str "a.txt"), ("id", .str "1"), ("size", .num 3)]

/-- Second entry of the example response array of the spec. -/
def goodEntryB : Json :=
  .obj [("name", .str "b.txt"), ("id", .str "2"), ("size", .num 9)]

/-- Claim C3: upload_file takes exactly the last element of the response
array (for the two-element example, the entry with id 2, name b.txt and
size 9), and the empty array gives the file-upload-failed error of the
source. -/
theorem claim_C3_upload_last (xs : List Json) (rs : List FileUploadResp)
    (r : FileUploadResp) :
    (parseRespArray xs = some rs → rs.getLast? = some r →
      upload_file true (.response (some (.arr xs))) = .ok r) ∧
    upload_file true (.response (some (.arr [goodEntryA, goodEntryB]))) =
      .ok ⟨"b.txt", "2", 9⟩ ∧
    upload_file true (.response (some (.arr []))) =
      .error "file upload failed" :=
  ⟨fun hp hl => parseRespArray_getLast hp hl, by rfl, by rfl⟩

/-- Witness for C3 at the example array of the spec. -/
theorem claim_C3_witness :
    upload_file true (.response (some (.arr [goodEntryA, goodEntryB]))) =
      Except.ok ⟨"b.txt", "2", 9⟩ :=
  (claim_C3_upload_last [goodEntryA, goodEntryB]
    [⟨"a.txt", "1", 3⟩, ⟨"b.txt", "2", 9⟩] ⟨"b.txt", "2", 9⟩).1 (by rfl) (by rfl)

/-- Counterexample to C4: get_first_page never inspects the status code, so
a response with non-success status 404 still yields a parsed HtmlDocument
instead of failing. -/
theorem claim_C4_counterexample :
    get_first_page (fun _ => ⟨none, []⟩) (HttpResult.response 404 "oops") =
      Except.ok ⟨none, []⟩ := rfl

/-- Claim C4 amended: get_first_page fails with the network error exactly
on transport failure; the status code of a received response is ignored,
and the body is always parsed (Html::parse_document is total), so every
received response, whatever its status, yields an HtmlDocument and a parse
failure cannot occur. -/
theorem claim_C4_amended (parse : String → Html) (status : Nat) (body : String) :
    get_first_page parse HttpResult.transportError = .error "network error" ∧
    get_first_page parse (HttpResult.response status body) = .ok (parse body) :=
  ⟨rfl, rfl⟩

/-- Witness for the amended C4 at a concrete parser and response. -/
theorem claim_C4_witness :
    get_first_page (fun _ => ⟨none, []⟩) HttpResult.transportError =
      Except.error "network error" ∧
    get_first_page (fun _ => ⟨none, []⟩) (HttpResult.response 200 "page") =
      Except.ok ((fun _ => (⟨none, []⟩ : Html)) "page") :=
  claim_C4_amended (fun _ => ⟨none, []⟩) 200 "page"

/-- Claim C5: when the local file does not exist, handle_upload fails with
the no-such-file error of the source and the list of issued HTTP requests
is empty: the existence check precedes every network stage. -/
theorem claim_C5_no_network (w : World) (h : w.fileExists = false) :
    handle_upload w = (.error "no such file", []) := by
  unfold handle_upload
  rw [if_pos h]

/-- Witness for C5 at a concrete world without the local file. -/
theorem claim_C5_witness :
    handle_upload ⟨false, fun _ => ⟨none, []⟩, HttpResult.transportError,
      HttpResult.transportError, true, JsonHttpResult.transportError, true,
      JsonHttpResult.transportError⟩ = (Except.error "no such file", []) :=
  claim_C5_no_network _ rfl

/-- Claim C6: extract_repo_id scans scripts in document order and returns
the first match only: when the first script has no matching text and the
second has one, the result coincides with that of the document holding only
the second script and is a success; when an earlier script matches, every
later script is ignored. -/
theorem claim_C6_document_order (f : Option FormEl) (s1 s2 : Script)
    (u : List Char) :
    ((∀ t ∈ s1.texts, ∀ v, ¬ patternOccursWith t v) →
      (∃ t ∈ s2.texts, patternOccursWith t u) →
      extract_repo_id ⟨f, [s1, s2]⟩ = extract_repo_id ⟨f, [s2]⟩ ∧
      ∃ r, extract_repo_id ⟨f, [s1, s2]⟩ = .ok r) ∧
    ((∃ t ∈ s1.texts, ∃ v, patternOccursWith t v) →
      ∀ ss, extract_repo_id ⟨f, s1 :: ss⟩ = extract_repo_id ⟨f, [s1]⟩) := by
  constructor
  · intro h1 h2
    have hn : findInTexts s1.texts = none := findInTexts_eq_none h1
    obtain ⟨v, hv⟩ := findInTexts_exists h2
    constructor
    · simp only [extract_repo_id_mk, findInScripts, hn, hv]
    · exact ⟨v, by simp only [extract_repo_id_mk, findInScripts, hn, hv]⟩
  · intro hex ss
    obtain ⟨t, ht, v, hocc⟩ := hex
    obtain ⟨w, hw⟩ := findInTexts_exists ⟨t, ht, hocc⟩
    simp only [extract_repo_id_mk, findInScripts, hw]

/-- Witness for C6: an empty first script and a matching second script. -/
theorem claim_C6_witness :
    extract_repo_id ⟨none, [⟨[]⟩, ⟨[patternText sampleHex20 sampleUuid]⟩]⟩ =
      extract_repo_id ⟨none, [⟨[patternText sampleHex20 sampleUuid]⟩]⟩ ∧
    ∃ r, extract_repo_id
      ⟨none, [⟨[]⟩, ⟨[patternText sampleHex20 sampleUuid]⟩]⟩ = Except.ok r :=
  (claim_C6_document_order none ⟨[]⟩ ⟨[patternText sampleHex20 sampleUuid]⟩
      sampleUuid).1
    (by intro t ht; simp at ht)
    ⟨patternText sampleHex20 sampleUuid, by simp, sample_text_occurs⟩

/-- Claim C7: invariant of the upload-session identifier: every string
successfully returned by extract_repo_id matches the fixed structural
pattern of hexadecimal groups of lengths 8-4-4-4-12 separated by hyphens. -/
theorem claim_C7_uuid_invariant {doc : Html} {u : List Char}
    (e : extract_repo_id doc = .ok u) : isUuidShaped u := by
  obtain ⟨sc, _, t, _, pre, h, post, _, _, _, hu⟩ := extract_repo_id_sound e
  exact hu

/-- Witness for C7 at the sample document. -/
theorem claim_C7_witness : isUuidShaped sampleUuid :=
  claim_C7_uuid_invariant
    (by rfl : extract_repo_id sampleDoc = Except.ok sampleUuid)

/-- Claim C8: the response parser of get_upload_url, applied to a JSON
object holding the string field url (exactly once, any other fields
arbitrary), returns that field value unchanged; in particular the example
object of the spec yields exactly its url string. -/
theorem claim_C8_upload_url (pre post : List (String × Json)) (s : String) :
    ("url" ∉ pre.map Prod.fst → "url" ∉ post.map Prod.fst →
      get_upload_url (.response (some (.obj (pre ++ ("url", .str s) :: post)))) =
        .ok s) ∧
    get_upload_url
        (.response (some (.obj [("url", .str "https://x/upload2/abc")]))) =
      .ok "https://x/upload2/abc" := by
  constructor
  · intro hpre hpost
    have hf : parseUploadUrlFields (pre ++ ("url", Json.str s) :: post) none =
        some s := parseUploadUrlFields_found hpre hpost
    simp [get_upload_url, parseUploadUrl, hf]
  · rfl

/-- Witness for C8 at the example object of the spec. -/
theorem claim_C8_witness :
    get_upload_url
        (.response (some (.obj [("url", Json.str "https://x/upload2/abc")]))) =
      Except.ok "https://x/upload2/abc" :=
  (claim_C8_upload_url [] [] "https://x/upload2/abc").1 (by simp) (by simp)

theorem upload_file_bad_elem {xs : List Json} {j : Json}
    (hmem : j ∈ xs) (hbad : parseFileUploadResp j = none) :
    upload_file true (.response (some (.arr xs))) =
      .error "malformed response" := by
  have h := parseRespArray_mem_none hmem hbad
  unfold upload_file
  rw [if_neg (by simp)]
  show (match parseRespList (Json.arr xs) with
    | none => Except.error "malformed response"
    | some resps =>
      match resps.getLast? with
      | none => Except.error "file upload failed"
      | some resp => Except.ok resp) = Except.error "malformed response"
  have h2 : parseRespList (Json.arr xs) = none := h
  rw [h2]

/-- Claim C9: the response parsing of upload_file is strict over the whole
array: if any element fails to deserialize as a FileUploadResp (missing
field or wrong type), the call fails with the malformed-response error even
when the last element is well-formed. -/
theorem claim_C9_strict_elements (xs : List Json) (j : Json)
    (hmem : j ∈ xs) (hbad : parseFileUploadResp j = none) :
    upload_file true (.response (some (.arr xs))) =
      .error "malformed response" :=
  upload_file_bad_elem hmem hbad

/-- Entry missing the size field, used as the malformed element. -/
def badEntry : Json := .obj [("name", .str "a.txt"), ("id", .str "1")]

/-- Witness for C9: an array whose first element lacks the size field and
whose last element is well-formed still fails. -/
theorem claim_C9_witness :
    upload_file true (.response (some (.arr [badEntry, goodEntryB]))) =
      Except.error "malformed response" :=
  claim_C9_strict_elements [badEntry, goodEntryB] badEntry (by simp) (by rfl)

/-- Claim C10: the size field is deserialized as a nonnegative machine
integer: a negative integer is rejected, a non-integral number is rejected,
a nonnegative integer below 2 to the 64 is accepted as is, and an entry
whose size field does not deserialize makes upload_file fail with the
malformed-response error instead of producing a result. -/
theorem claim_C10_size_machine_int (n : Int) (sz : Json) (nm idv : String) :
    (n < 0 → parseUsize (.num n) = none) ∧
    parseUsize .numNonInt = none ∧
    (0 ≤ n → n < 2 ^ 64 → parseUsize (.num n) = some n.toNat) ∧
    (parseUsize sz = none →
      upload_file true (.response (some (.arr
        [.obj [("name", .str nm), ("id", .str idv), ("size", sz)]]))) =
        .error "malformed response") := by
  refine ⟨?_, rfl, ?_, ?_⟩
  · intro hn
    show (if 0 ≤ n ∧ n < 2 ^ 64 then some n.toNat else none) = none
    rw [if_neg (fun hc => absurd hc.1 (by omega))]
  · intro h1 h2
    show (if 0 ≤ n ∧ n < 2 ^ 64 then some n.toNat else none) = some n.toNat
    rw [if_pos ⟨h1, h2⟩]
  · intro hsz
    have hb : parseFileUploadResp (Json.obj
        [("name", Json.str nm), ("id", Json.str idv), ("size", sz)]) = none := by
      show (match parseUsize sz with
        | none => none
        | some k => if (none : Option Nat) = none
            then parseRespFields [] (some nm) (some idv) (some k) else none) =
          none
      rw [hsz]
    exact upload_file_bad_elem (by simp) hb

/-- Witness for C10 at a negative size. -/
theorem claim_C10_witness :
    parseUsize (Json.num (-1)) = none ∧
    upload_file true (.response (some (.arr [.obj [("name", Json.str "a.txt"),
        ("id", Json.str "1"), ("size", Json.num (-1))]]))) =
      Except.error "malformed response" :=
  ⟨(claim_C10_size_machine_int (-1) (Json.num (-1)) "a.txt" "1").1 (by decide),
   (claim_C10_size_machine_int (-1) (Json.num (-1)) "a.txt" "1").2.2.2 (by rfl)⟩
